import Mathlib

/-!
# Verification of the knowledge-base question-answering service (`src/app.py`)

This file is a shallow embedding of the retrieval engine of `src/app.py`:
the hash embedding `simple_embedding`, cosine similarity
`calculate_similarity`, the in-memory document store with `upload_document`
and `clear_cache`, and the query pipeline `ask_question` with its
vector phase, keyword-fallback phase and query-history log.

Modelling choices, all traceable to the source:

* Python strings are modelled as their character sequences (`PyStr := List
  Char`), with structurally recursive models of `str.strip()`, `str.lower()`,
  `str.split()` and slicing, so that every definition evaluates inside the
  kernel.
* Python floats are modelled as exact rationals `ℚ`.  Two operations have no
  exact rational counterpart and are parameters of the embedding:
  `md5 : PyStr → ℕ` stands for `int(hashlib.md5(word.encode()).hexdigest(), 16)`
  and `rt : ℚ → ℚ` stands for the float operation `x ** 0.5` (square root).
  Every theorem below holds for every choice of these parameters; where the
  guard structure of the source genuinely depends on square-root behaviour,
  the corresponding facts (`rt 0 = 0`, positivity) are explicit hypotheses.
* Python sets of tokens are modelled as deduplicated lists: `set(xs)` becomes
  `xs.dedup`, and the intersection of two such sets becomes a membership
  filter, whose length is exactly the cardinality of the set intersection.
* Python's `list.sort(key=..., reverse=True)` is a stable descending sort; it
  is modelled by a stable insertion sort on the same key.
-/

/-- A Python string, modelled as its sequence of characters. -/
abbrev PyStr := List Char

/-- Python `str.strip()`: remove leading and trailing whitespace. -/
def pyStrip (s : PyStr) : PyStr :=
  ((s.dropWhile Char.isWhitespace).reverse.dropWhile Char.isWhitespace).reverse

/-- Python `str.lower()` (ASCII model). -/
def pyLower (s : PyStr) : PyStr :=
  s.map Char.toLower

/-- Helper for `pySplit`; the second argument is the current word, reversed. -/
def pySplitAux : List Char → List Char → List PyStr
  | [], cur => if cur = [] then [] else [cur.reverse]
  | c :: cs, cur =>
      if c.isWhitespace then
        if cur = [] then pySplitAux cs [] else cur.reverse :: pySplitAux cs []
      else pySplitAux cs (c :: cur)

/-- Python `str.split()` with no argument: split on whitespace runs,
dropping empty pieces. -/
def pySplit (s : PyStr) : List PyStr :=
  pySplitAux s []

/-- Python `round(x, 4)`: the value rounded to four decimal places.
(The exact tie-breaking convention never matters in this development.) -/
def round4 (q : ℚ) : ℚ :=
  ((round (q * 10000) : ℤ) : ℚ) / 10000

/-- `generate_doc_id` (src/app.py:23-25): `len(knowledge_base) + 1`. -/
def generate_doc_id (knowledge_base : List α) : ℕ :=
  knowledge_base.length + 1

/-- `simple_embedding` (src/app.py:27-46).  `md5` stands for the integer value
of the MD5 hex digest of a word. -/
def simple_embedding (md5 : PyStr → ℕ) (text : PyStr) (dimensions : ℕ) : List ℚ :=
  let words := (pySplit (pyLower text)).take dimensions
  let embedding := words.map (fun word => ((md5 word % 10000 % 1000 : ℕ) : ℚ) / 1000)
  (embedding ++ List.replicate (dimensions - embedding.length) 0).take dimensions

/-- `calculate_similarity` (src/app.py:48-60).  `rt` stands for `** 0.5`;
the function is total: malformed input degrades to `0`. -/
def calculate_similarity (rt : ℚ → ℚ) (vec1 vec2 : List ℚ) : ℚ :=
  if vec1 = [] ∨ vec2 = [] ∨ vec1.length ≠ vec2.length then 0
  else
    let dot_product := ((vec1.zip vec2).map (fun p => p.1 * p.2)).sum
    let norm1 := rt ((vec1.map (fun a => a * a)).sum)
    let norm2 := rt ((vec2.map (fun b => b * b)).sum)
    if norm1 = 0 ∨ norm2 = 0 then 0 else dot_product / (norm1 * norm2)

/-- A stored document (the dict built in `upload_document`,
src/app.py:164-174). -/
structure Doc where
  id : ℕ
  title : PyStr
  content : PyStr
  embedding : List ℚ
  created_at : PyStr
  length : ℕ
  keywords : List PyStr
deriving DecidableEq

/-- A query-history entry (the dict built in `ask_question`,
src/app.py:226-232). -/
structure QueryRecord where
  question : PyStr
  timestamp : PyStr
  documents_count : ℕ
deriving DecidableEq

/-- The process state: the two module-level lists of src/app.py:18-19. -/
structure KBState where
  knowledge_base : List Doc
  query_history : List QueryRecord
deriving DecidableEq

/-- The state at process start: both stores empty. -/
def initState : KBState :=
  { knowledge_base := [], query_history := [] }

/-- The `status` field of an `/ask` response. -/
inductive AskStatus where
  | success
  | keyword_match
  | no_match
  | no_documents
deriving DecidableEq

/-- The JSON body answered by `/ask`, flattened (`source_*` fields are the
members of the nested `source` object; absent JSON fields are `none`). -/
structure AskResult where
  answer : PyStr
  confidence : ℚ
  status : AskStatus
  source_document_id : Option ℕ
  source_title : Option PyStr
  source_content_preview : Option PyStr
  source_similarity_score : Option ℚ
  source_matched_keywords : Option (List PyStr)
  keywords : Option (List PyStr)
  suggestions : Option (List PyStr)
deriving DecidableEq

/-- `upload_document` (src/app.py:135-198), as a function of the store state;
`Except.error` is a 400 `ValidationError` response.  `title = none` models a
request without a `"title"` key; `now` is the `datetime.now().isoformat()`
timestamp. -/
def upload_document (md5 : PyStr → ℕ) (st : KBState) (now : PyStr)
    (title : Option PyStr) (rawContent : PyStr) : Except PyStr (Doc × KBState) :=
  let content := pyStrip rawContent
  if content = [] then Except.error "文档内容不能为空".data
  else if 10000 < content.length then Except.error "文档内容过长（最大10000字符）".data
  else
    let doc_id := generate_doc_id st.knowledge_base
    let document : Doc :=
      { id := doc_id
        title := title.getD ("未命名文档_".data ++ (Nat.repr doc_id).data)
        content := content
        embedding := simple_embedding md5 content 384
        created_at := now
        length := content.length
        -- `list(set(content.lower().split()[:10]))`
        keywords := ((pySplit (pyLower content)).take 10).dedup }
    Except.ok (document, { st with knowledge_base := st.knowledge_base ++ [document] })

/-- `clear_cache` (src/app.py:346-359): returns the prior document count and
empties both the store and the query history. -/
def clear_cache (st : KBState) : ℕ × KBState :=
  (st.knowledge_base.length, { knowledge_base := [], query_history := [] })

/-- The question actually processed by `ask_question`: stripped, then
truncated to 500 characters if longer (src/app.py:215-224). -/
def questionTruncated (rawQ : PyStr) : PyStr :=
  let question := pyStrip rawQ
  if 500 < question.length then question.take 500 else question

/-- `set(question.lower().split())`, as a deduplicated token list. -/
def questionTokens (question : PyStr) : List PyStr :=
  (pySplit (pyLower question)).dedup

/-- The best-match scan of the vector phase (src/app.py:247-254): fold over
the store, keeping the first document whose similarity strictly exceeds the
running best, which starts at `0.0`. -/
def vectorScanQE (rt : ℚ → ℚ) (qe : List ℚ) (kb : List Doc) : Option Doc × ℚ :=
  kb.foldl
    (fun acc doc =>
      if acc.2 < calculate_similarity rt qe doc.embedding
      then (some doc, calculate_similarity rt qe doc.embedding) else acc)
    ((none : Option Doc), (0 : ℚ))

/-- The common (distinct) tokens of a question and a document's keyword set:
`question_keywords.intersection(doc_keywords)` (src/app.py:280); its length is
the cardinality of the set intersection. -/
def commonKeywords (question : PyStr) (doc : Doc) : List PyStr :=
  (questionTokens question).filter (fun w => w ∈ doc.keywords)

/-- The keyword-match candidates (src/app.py:275-286): every document whose
keyword set meets the question's token set, paired with the common tokens
(distinct, so the length of the list is the cardinality of the set
intersection). -/
def keywordMatches (kb : List Doc) (question : PyStr) : List (Doc × List PyStr) :=
  kb.filterMap (fun doc =>
    if commonKeywords question doc = [] then none
    else some (doc, commonKeywords question doc))

/-- One step of the stable descending insertion sort modelling
`keyword_matches.sort(key=lambda x: x['count'], reverse=True)`
(src/app.py:290): the new element goes after every element with an
equal-or-larger count. -/
def insertByCountDesc (x : Doc × List PyStr) :
    List (Doc × List PyStr) → List (Doc × List PyStr)
  | [] => [x]
  | y :: ys => if y.2.length < x.2.length then x :: y :: ys else y :: insertByCountDesc x ys

/-- Python's stable `sort(key=count, reverse=True)`, as a stable insertion
sort. -/
def pySortByCountDesc (l : List (Doc × List PyStr)) : List (Doc × List PyStr) :=
  l.foldl (fun acc x => insertByCountDesc x acc) []

/-- The `no_documents` response (src/app.py:235-241). -/
def noDocumentsResult : AskResult :=
  { answer := "知识库为空，请先上传文档。".data
    confidence := 0
    status := AskStatus.no_documents
    source_document_id := none
    source_title := none
    source_content_preview := none
    source_similarity_score := none
    source_matched_keywords := none
    keywords := none
    suggestions := some ["上传相关文档后再提问".data] }

/-- The `success` response (src/app.py:257-272), for matched document `d`
with best score `s`.  Note the content preview appends `"..."`
unconditionally, while the answer body appends it only when the content
exceeds 300 characters. -/
def successResult (d : Doc) (s : ℚ) : AskResult :=
  { answer := "根据文档「".data ++ d.title ++ "」找到相关信息：\n\n".data ++
      d.content.take 300 ++ (if 300 < d.content.length then "...".data else [])
    confidence := round4 s
    status := AskStatus.success
    source_document_id := some d.id
    source_title := some d.title
    source_content_preview := some (d.content.take 100 ++ "...".data)
    source_similarity_score := some (round4 s)
    source_matched_keywords := none
    keywords := some d.keywords
    suggestions := none }

/-- The `keyword_match` response (src/app.py:288-306), for the selected
candidate `x` (document plus common tokens).  Confidence is the fixed `0.5`
of src/app.py:304. -/
def keywordResult (x : Doc × List PyStr) : AskResult :=
  { answer := "根据关键词匹配找到相关文档：\n\n".data ++ x.1.content.take 300 ++ "...".data
    confidence := 1/2
    status := AskStatus.keyword_match
    source_document_id := some x.1.id
    source_title := some x.1.title
    source_content_preview := none
    source_similarity_score := none
    source_matched_keywords := some x.2
    keywords := none
    suggestions := none }

/-- The `no_match` response (src/app.py:307-317). -/
def noMatchResult : AskResult :=
  { answer := "抱歉，知识库中没有找到相关信息。\n\n建议：\n1. 上传相关文档\n2. 重新组织问题\n3. 使用更具体的关键词".data
    confidence := 0
    status := AskStatus.no_match
    source_document_id := none
    source_title := none
    source_content_preview := none
    source_similarity_score := none
    source_matched_keywords := none
    keywords := none
    suggestions := some ["检查文档是否相关".data, "尝试不同的提问方式".data, "添加更多详细描述".data] }

/-- The keyword-fallback phase (src/app.py:274-317): collect candidates,
stable-sort them by descending common-token count and answer from the first,
or answer `no_match` when there is no candidate.  (`sorted.head?` is `none`
exactly when `keyword_matches` is empty, matching `if keyword_matches:` and
`keyword_matches[0]` of the source.) -/
def keywordPhase (kb : List Doc) (question : PyStr) : AskResult :=
  match (pySortByCountDesc (keywordMatches kb question)).head? with
  | none => noMatchResult
  | some best => keywordResult best

/-- The answering pipeline after validation (src/app.py:234-317): empty-store
check, vector phase with threshold `0.1`, keyword fallback.  The Python
condition `if best_match and best_score > 0.1` is the outer `match` plus the
inner `if`. -/
def askCore (md5 : PyStr → ℕ) (rt : ℚ → ℚ) (kb : List Doc) (question : PyStr) : AskResult :=
  if kb = [] then noDocumentsResult
  else
    match vectorScanQE rt (simple_embedding md5 question 384) kb with
    | (some best_match, best_score) =>
        if 1/10 < best_score then successResult best_match best_score
        else keywordPhase kb question
    | (none, _) => keywordPhase kb question

/-- `ask_question` (src/app.py:200-323), as a function of the store state;
`Except.error` is the 400 `ValidationError` response for a question that is
empty after stripping.  A validated question first appends one query-history
record (src/app.py:226-232), then is answered by `askCore`. -/
def ask_question (md5 : PyStr → ℕ) (rt : ℚ → ℚ) (st : KBState) (now rawQ : PyStr) :
    Except PyStr (AskResult × KBState) :=
  if pyStrip rawQ = [] then Except.error "问题不能为空".data
  else
    let question := questionTruncated rawQ
    let st' : KBState :=
      { st with query_history := st.query_history ++
          [{ question := question, timestamp := now,
             documents_count := st.knowledge_base.length }] }
    Except.ok (askCore md5 rt st.knowledge_base question, st')

/-- `True` on `Except.error`: the request answered with a 400 response. -/
def isErr : Except ε α → Bool
  | Except.error _ => true
  | Except.ok _ => false

/-- One client operation against the service: `POST /upload`, `POST /ask`, or
`POST /clear`. -/
inductive Op where
  | add (title : Option PyStr) (content : PyStr) (now : PyStr)
  | ask (question : PyStr) (now : PyStr)
  | clear
deriving DecidableEq

/-- The state transition of one operation (failed validations leave the state
unchanged). -/
def stepOp (md5 : PyStr → ℕ) (rt : ℚ → ℚ) (st : KBState) : Op → KBState
  | Op.add title content now =>
      match upload_document md5 st now title content with
      | Except.ok (_, st') => st'
      | Except.error _ => st
  | Op.ask q now =>
      match ask_question md5 rt st now q with
      | Except.ok (_, st') => st'
      | Except.error _ => st
  | Op.clear => (clear_cache st).2

/-- Run a sequence of operations from the process-start state. -/
def runOps (md5 : PyStr → ℕ) (rt : ℚ → ℚ) (ops : List Op) : KBState :=
  ops.foldl (stepOp md5 rt) initState

/-- The document ids assigned by the successful uploads of an operation
sequence, in order. -/
def addedIds (md5 : PyStr → ℕ) (rt : ℚ → ℚ) : KBState → List Op → List ℕ
  | _, [] => []
  | st, op :: rest =>
      (match op with
        | Op.add title content now =>
            match upload_document md5 st now title content with
            | Except.ok (d, _) => [d.id]
            | Except.error _ => []
        | _ => []) ++ addedIds md5 rt (stepOp md5 rt st op) rest

/-- The similarity score `ask_question` computes for one stored document. -/
def docScore (md5 : PyStr → ℕ) (rt : ℚ → ℚ) (question : PyStr) (doc : Doc) : ℚ :=
  calculate_similarity rt (simple_embedding md5 question 384) doc.embedding

/-- The best score of the vector phase: the maximum of `0.0` (the running
best's start value) and all document scores. -/
def bestVectorScore (md5 : PyStr → ℕ) (rt : ℚ → ℚ) (kb : List Doc) (question : PyStr) : ℚ :=
  (kb.map (docScore md5 rt question)).foldl max 0

/-- A concrete stand-in for the MD5 hash, used only to instantiate the
parametric theorems on concrete inputs (every word hashes to `500`, so every
word's embedding value is `0.5`). -/
def md5Stub : PyStr → ℕ := fun _ => 500

/-- A concrete stand-in for the MD5 hash mapping every word to `0`, so every
embedding is the zero vector. -/
def md5Zero : PyStr → ℕ := fun _ => 0

/-- A concrete stand-in for the float operation `** 0.5`, used only to
instantiate the parametric theorems on concrete inputs. -/
def rtId : ℚ → ℚ := fun q => q

/-- The document produced by uploading content `"a"` (with no title, at
timestamp `"t0"`) into the empty store, under `md5Stub`. -/
def docW : Doc :=
  { id := 1
    title := "未命名文档_1".data
    content := "a".data
    embedding := simple_embedding md5Stub "a".data 384
    created_at := "t0".data
    length := 1
    keywords := ["a".data] }

/-- The store state after that single upload. -/
def stW : KBState := { knowledge_base := [docW], query_history := [] }

/-- The same document uploaded under `md5Zero` (zero embedding). -/
def docW0 : Doc :=
  { id := 1
    title := "未命名文档_1".data
    content := "a".data
    embedding := simple_embedding md5Zero "a".data 384
    created_at := "t0".data
    length := 1
    keywords := ["a".data] }

/-- The store state holding only `docW0`. -/
def stW0 : KBState := { knowledge_base := [docW0], query_history := [] }

/-! ## General lemmas -/

/-- A sum of squares of rationals is nonnegative. -/
theorem sumsq_nonneg (v : List ℚ) : 0 ≤ (v.map (fun a => a * a)).sum := by
  apply List.sum_nonneg
  intro x hx
  obtain ⟨a, -, rfl⟩ := List.mem_map.mp hx
  exact mul_self_nonneg a

/-- `simple_embedding` with the final (no-op) slice removed: the hashed
values of the first `dimensions` words, right-padded with `0`. -/
theorem simple_embedding_eq (md5 : PyStr → ℕ) (text : PyStr) (dimensions : ℕ) :
    simple_embedding md5 text dimensions =
      ((pySplit (pyLower text)).take dimensions).map
          (fun word => ((md5 word % 10000 % 1000 : ℕ) : ℚ) / 1000) ++
        List.replicate
          (dimensions -
            (((pySplit (pyLower text)).take dimensions).map
              (fun word => ((md5 word % 10000 % 1000 : ℕ) : ℚ) / 1000)).length) 0 := by
  unfold simple_embedding
  apply List.take_of_length_le
  simp only [List.length_append, List.length_map, List.length_take, List.length_replicate]
  omega

/-- `upload_document` answers a 400 response exactly on invalid content. -/
theorem upload_isErr_iff (md5 : PyStr → ℕ) (st : KBState) (now : PyStr)
    (title : Option PyStr) (rawContent : PyStr) :
    isErr (upload_document md5 st now title rawContent) = true ↔
      pyStrip rawContent = [] ∨ 10000 < (pyStrip rawContent).length := by
  simp only [upload_document]
  split_ifs with h1 h2
  · simp [isErr, h1]
  · simp [isErr, h1, h2]
  · simp [isErr, h1, h2]

/-- Shape of a successful `upload_document`: the id is `count + 1`, the
document goes to the end of the store, the query history is untouched. -/
theorem upload_document_ok_shape (md5 : PyStr → ℕ) (st : KBState) (now : PyStr)
    (title : Option PyStr) (rawContent : PyStr) (d : Doc) (st' : KBState)
    (h : upload_document md5 st now title rawContent = Except.ok (d, st')) :
    d.id = st.knowledge_base.length + 1 ∧
    st'.knowledge_base = st.knowledge_base ++ [d] ∧
    st'.query_history = st.query_history := by
  simp only [upload_document] at h
  split_ifs at h with h1 h2
  simp only [Except.ok.injEq, Prod.mk.injEq] at h
  obtain ⟨hd, hst⟩ := h
  subst hd
  subst hst
  exact ⟨rfl, rfl, rfl⟩

/-- A validated question is answered by `askCore` on the untouched store, and
appends exactly one query record. -/
theorem ask_question_ok (md5 : PyStr → ℕ) (rt : ℚ → ℚ) (st : KBState)
    (now rawQ : PyStr) (hq : pyStrip rawQ ≠ []) :
    ask_question md5 rt st now rawQ =
      Except.ok (askCore md5 rt st.knowledge_base (questionTruncated rawQ),
        { knowledge_base := st.knowledge_base,
          query_history := st.query_history ++
            [{ question := questionTruncated rawQ, timestamp := now,
               documents_count := st.knowledge_base.length }] }) := by
  simp only [ask_question, if_neg hq]

/-- Shape of a successful `ask_question`. -/
theorem ask_question_ok_shape (md5 : PyStr → ℕ) (rt : ℚ → ℚ) (st : KBState)
    (now rawQ : PyStr) (res : AskResult) (st' : KBState)
    (h : ask_question md5 rt st now rawQ = Except.ok (res, st')) :
    pyStrip rawQ ≠ [] ∧
    res = askCore md5 rt st.knowledge_base (questionTruncated rawQ) ∧
    st' = { knowledge_base := st.knowledge_base,
            query_history := st.query_history ++
              [{ question := questionTruncated rawQ, timestamp := now,
                 documents_count := st.knowledge_base.length }] } := by
  by_cases hq : pyStrip rawQ = []
  · rw [ask_question, if_pos hq] at h
    exact absurd h (by simp)
  · rw [ask_question_ok md5 rt st now rawQ hq] at h
    simp only [Except.ok.injEq, Prod.mk.injEq] at h
    exact ⟨hq, h.1.symm, h.2.symm⟩

/-- The processed question never exceeds 500 characters. -/
theorem questionTruncated_length_le (rawQ : PyStr) :
    (questionTruncated rawQ).length ≤ 500 := by
  simp only [questionTruncated]
  split_ifs with h
  · simp [List.length_take]
  · exact le_of_not_lt h

/-! ## C4, C5, C6, C7 -/

/-- C4: for every text input and dimensionality `d`, `simple_embedding` returns
exactly `d` rationals, each in `[0, 1)`: the first `d` words are hashed
(`md5` value mod 10000, mod 1000, divided by 1000), and the result is
right-padded with `0.0` to exactly `d` entries. -/
theorem simple_embedding_spec (md5 : PyStr → ℕ) (text : PyStr) (dimensions : ℕ) :
    (simple_embedding md5 text dimensions).length = dimensions ∧
    (∀ q ∈ simple_embedding md5 text dimensions, 0 ≤ q ∧ q < 1) ∧
    simple_embedding md5 text dimensions =
      ((pySplit (pyLower text)).take dimensions).map
          (fun word => ((md5 word % 10000 % 1000 : ℕ) : ℚ) / 1000) ++
        List.replicate
          (dimensions -
            (((pySplit (pyLower text)).take dimensions).map
              (fun word => ((md5 word % 10000 % 1000 : ℕ) : ℚ) / 1000)).length) 0 := by
  refine ⟨?_, ?_, simple_embedding_eq md5 text dimensions⟩
  · rw [simple_embedding_eq]
    simp only [List.length_append, List.length_map, List.length_take, List.length_replicate]
    omega
  · intro q hq
    rw [simple_embedding_eq] at hq
    rcases List.mem_append.mp hq with hq | hq
    · obtain ⟨word, -, rfl⟩ := List.mem_map.mp hq
      refine ⟨div_nonneg (Nat.cast_nonneg _) (by norm_num), ?_⟩
      rw [div_lt_one (by norm_num)]
      exact_mod_cast Nat.mod_lt _ (by norm_num)
    · rw [List.eq_of_mem_replicate hq]
      norm_num

/-- C5: `upload_document` fails with a `ValidationError` if and only if the
content is empty after stripping or its (stripped) length exceeds the maximum
of 10000 characters — so content of length exactly 10000 is accepted and
length 10001 is rejected. -/
theorem upload_document_validation_spec (md5 : PyStr → ℕ) (st : KBState) (now : PyStr)
    (title : Option PyStr) (rawContent : PyStr) :
    isErr (upload_document md5 st now title rawContent) = true ↔
      pyStrip rawContent = [] ∨ 10000 < (pyStrip rawContent).length :=
  upload_isErr_iff md5 st now title rawContent

/-- C6: `ask_question` fails with a `ValidationError` exactly when the
question is empty after stripping; an overlength question is not rejected but
truncated to 500 characters before processing (the processed question is the
one recorded in the query history), unlike overlength document content, which
is hard-rejected by `upload_document`. -/
theorem ask_question_validation_spec (md5 : PyStr → ℕ) (rt : ℚ → ℚ) (st : KBState)
    (now rawQ : PyStr) :
    (isErr (ask_question md5 rt st now rawQ) = true ↔ pyStrip rawQ = []) ∧
    (∀ res st', ask_question md5 rt st now rawQ = Except.ok (res, st') →
      st'.query_history = st.query_history ++
        [{ question := questionTruncated rawQ, timestamp := now,
           documents_count := st.knowledge_base.length }] ∧
      (questionTruncated rawQ).length ≤ 500 ∧
      (500 < (pyStrip rawQ).length → questionTruncated rawQ = (pyStrip rawQ).take 500) ∧
      ((pyStrip rawQ).length ≤ 500 → questionTruncated rawQ = pyStrip rawQ)) ∧
    (∀ (title : Option PyStr) (content : PyStr), 10000 < (pyStrip content).length →
      isErr (upload_document md5 st now title content) = true) := by
  refine ⟨?_, ?_, ?_⟩
  · simp only [ask_question]
    split_ifs with h1
    · simp [isErr, h1]
    · simp [isErr, h1]
  · intro res st' h
    obtain ⟨-, -, hst⟩ := ask_question_ok_shape md5 rt st now rawQ res st' h
    subst hst
    refine ⟨rfl, questionTruncated_length_le rawQ, ?_, ?_⟩
    · intro hlong
      simp only [questionTruncated]
      rw [if_pos hlong]
    · intro hshort
      simp only [questionTruncated]
      rw [if_neg (not_lt.mpr hshort)]
  · intro title content hlong
    exact (upload_isErr_iff md5 st now title content).mpr (Or.inr hlong)

/-- C7: `calculate_similarity` is total and never raises: it returns `0.0`
whenever either vector is empty, the lengths differ, or either vector's
Euclidean norm is zero (a sum of squares is zero exactly when the norm is);
otherwise it returns the dot product divided by the product of the norms.
`rt` models the float square root: `rt 0 = 0` and positive inputs have
nonzero output. -/
theorem calculate_similarity_total_spec (rt : ℚ → ℚ) (hrt0 : rt 0 = 0)
    (hrtpos : ∀ q : ℚ, 0 < q → rt q ≠ 0) (vec1 vec2 : List ℚ) :
    (vec1 = [] ∨ vec2 = [] ∨ vec1.length ≠ vec2.length →
      calculate_similarity rt vec1 vec2 = 0) ∧
    ((vec1.map (fun a => a * a)).sum = 0 ∨ (vec2.map (fun b => b * b)).sum = 0 →
      calculate_similarity rt vec1 vec2 = 0) ∧
    (vec1 ≠ [] → vec2 ≠ [] → vec1.length = vec2.length →
      (vec1.map (fun a => a * a)).sum ≠ 0 → (vec2.map (fun b => b * b)).sum ≠ 0 →
      calculate_similarity rt vec1 vec2 =
        ((vec1.zip vec2).map (fun p => p.1 * p.2)).sum /
          (rt ((vec1.map (fun a => a * a)).sum) * rt ((vec2.map (fun b => b * b)).sum))) := by
  refine ⟨?_, ?_, ?_⟩
  · intro h
    simp only [calculate_similarity]
    rw [if_pos h]
  · intro h
    by_cases hg : vec1 = [] ∨ vec2 = [] ∨ vec1.length ≠ vec2.length
    · simp only [calculate_similarity]
      rw [if_pos hg]
    · simp only [calculate_similarity]
      rw [if_neg hg, if_pos]
      rcases h with h | h
      · exact Or.inl (by rw [h, hrt0])
      · exact Or.inr (by rw [h, hrt0])
  · intro h1 h2 h3 h4 h5
    have hg : ¬(vec1 = [] ∨ vec2 = [] ∨ vec1.length ≠ vec2.length) := by
      push_neg
      exact ⟨h1, h2, h3⟩
    have hn1 : rt ((vec1.map (fun a => a * a)).sum) ≠ 0 :=
      hrtpos _ (lt_of_le_of_ne (sumsq_nonneg vec1) (Ne.symm h4))
    have hn2 : rt ((vec2.map (fun b => b * b)).sum) ≠ 0 :=
      hrtpos _ (lt_of_le_of_ne (sumsq_nonneg vec2) (Ne.symm h5))
    simp only [calculate_similarity]
    rw [if_neg hg, if_neg]
    push_neg
    exact ⟨hn1, hn2⟩

/-! ## The best-score scan -/

/-- The `best_match`/`best_score` loop (and, mutatis mutandis, any
strict-improvement scan): the fold either leaves the accumulator untouched,
with every score at most the running best, or ends at the first element of a
maximal score strictly above the initial best — earlier elements score
strictly lower, later ones at most it. -/
theorem foldl_bestscan_spec {α β : Type} [LinearOrder β] (f : α → β) (l : List α) :
    ∀ acc : Option α × β,
      (l.foldl (fun a x => if a.2 < f x then (some x, f x) else a) acc = acc ∧
        ∀ y ∈ l, f y ≤ acc.2) ∨
      (∃ l₁ x l₂, l = l₁ ++ x :: l₂ ∧
        l.foldl (fun a x => if a.2 < f x then (some x, f x) else a) acc = (some x, f x) ∧
        acc.2 < f x ∧ (∀ y ∈ l₁, f y < f x) ∧ (∀ y ∈ l₂, f y ≤ f x)) := by
  induction l with
  | nil =>
    intro acc
    exact Or.inl ⟨rfl, by simp⟩
  | cons a t ih =>
    intro acc
    rw [List.foldl_cons]
    by_cases h : acc.2 < f a
    · rw [if_pos h]
      rcases ih (some a, f a) with ⟨heq, hall⟩ | ⟨t₁, x, t₂, ht, hfold, hlt, hpre, hpost⟩
      · exact Or.inr ⟨[], a, t, rfl, heq, h, by simp, hall⟩
      · refine Or.inr ⟨a :: t₁, x, t₂, by rw [ht, List.cons_append], hfold,
          lt_trans h hlt, ?_, hpost⟩
        intro y hy
        rcases List.mem_cons.mp hy with rfl | hy'
        · exact hlt
        · exact hpre y hy'
    · rw [if_neg h]
      rcases ih acc with ⟨heq, hall⟩ | ⟨t₁, x, t₂, ht, hfold, hlt, hpre, hpost⟩
      · refine Or.inl ⟨heq, ?_⟩
        intro y hy
        rcases List.mem_cons.mp hy with rfl | hy'
        · exact not_lt.mp h
        · exact hall y hy'
      · refine Or.inr ⟨a :: t₁, x, t₂, by rw [ht, List.cons_append], hfold, hlt, ?_, hpost⟩
        intro y hy
        rcases List.mem_cons.mp hy with rfl | hy'
        · exact lt_of_le_of_lt (not_lt.mp h) hlt
        · exact hpre y hy'

/-- The running best after the scan is the maximum of the initial best and
all scores. -/
theorem foldl_bestscan_snd {α β : Type} [LinearOrder β] (f : α → β) (l : List α) :
    ∀ acc : Option α × β,
      (l.foldl (fun a x => if a.2 < f x then (some x, f x) else a) acc).2 =
        (l.map f).foldl max acc.2 := by
  induction l with
  | nil =>
    intro acc
    rfl
  | cons a t ih =>
    intro acc
    rw [List.foldl_cons, List.map_cons, List.foldl_cons]
    by_cases h : acc.2 < f a
    · rw [if_pos h, ih (some a, f a)]
      congr 1
      exact (max_eq_right (le_of_lt h)).symm
    · rw [if_neg h, ih acc]
      congr 1
      exact (max_eq_left (not_lt.mp h)).symm

/-- `vectorScanQE` is the strict-improvement scan over the document scores. -/
theorem vectorScanQE_eq (rt : ℚ → ℚ) (qe : List ℚ) (kb : List Doc) :
    vectorScanQE rt qe kb =
      kb.foldl
        (fun a x => if a.2 < calculate_similarity rt qe x.embedding
          then (some x, calculate_similarity rt qe x.embedding) else a)
        ((none : Option Doc), (0 : ℚ)) := rfl

/-- The second component of `vectorScanQE` is `bestVectorScore`. -/
theorem vectorScanQE_snd (md5 : PyStr → ℕ) (rt : ℚ → ℚ) (kb : List Doc) (question : PyStr) :
    (vectorScanQE rt (simple_embedding md5 question 384) kb).2 =
      bestVectorScore md5 rt kb question := by
  rw [vectorScanQE_eq,
    foldl_bestscan_snd (fun x : Doc =>
      calculate_similarity rt (simple_embedding md5 question 384) x.embedding) kb]
  rfl

/-- The keyword phase never answers with status `success`. -/
theorem keywordPhase_status_ne_success (kb : List Doc) (q : PyStr) :
    (keywordPhase kb q).status ≠ AskStatus.success := by
  unfold keywordPhase
  cases h : (pySortByCountDesc (keywordMatches kb q)).head? with
  | none => simp [noMatchResult]
  | some best => simp [keywordResult]

/-! ## C2 -/

/-- Case analysis of the vector phase of `askCore` on a non-empty store. -/
theorem askCore_vector_phase (md5 : PyStr → ℕ) (rt : ℚ → ℚ) (kb : List Doc)
    (q : PyStr) (hkb : kb ≠ []) :
    ((askCore md5 rt kb q).status = AskStatus.success ↔
      1/10 < bestVectorScore md5 rt kb q) ∧
    (1/10 < bestVectorScore md5 rt kb q →
      ∃ l₁ d l₂, kb = l₁ ++ d :: l₂ ∧
        docScore md5 rt q d = bestVectorScore md5 rt kb q ∧
        (∀ e ∈ l₁, docScore md5 rt q e < docScore md5 rt q d) ∧
        (∀ e ∈ l₂, docScore md5 rt q e ≤ docScore md5 rt q d) ∧
        askCore md5 rt kb q = successResult d (docScore md5 rt q d)) := by
  rcases foldl_bestscan_spec
      (fun x : Doc => calculate_similarity rt (simple_embedding md5 q 384) x.embedding)
      kb ((none : Option Doc), (0 : ℚ)) with
    ⟨heq, -⟩ | ⟨l₁, d, l₂, hsplit, hfold, -, hpre, hpost⟩
  · have hscan : vectorScanQE rt (simple_embedding md5 q 384) kb = (none, 0) := by
      rw [vectorScanQE_eq]
      exact heq
    have hbest : bestVectorScore md5 rt kb q = 0 := by
      rw [← vectorScanQE_snd md5 rt kb q, hscan]
    have hcore : askCore md5 rt kb q = keywordPhase kb q := by
      unfold askCore
      rw [if_neg hkb, hscan]
    rw [hbest, hcore]
    constructor
    · constructor
      · intro hsucc
        exact absurd hsucc (keywordPhase_status_ne_success kb q)
      · intro hlt
        norm_num at hlt
    · intro hlt
      norm_num at hlt
  · have hscan : vectorScanQE rt (simple_embedding md5 q 384) kb =
        (some d, docScore md5 rt q d) := by
      rw [vectorScanQE_eq]
      exact hfold
    have hbest : bestVectorScore md5 rt kb q = docScore md5 rt q d := by
      rw [← vectorScanQE_snd md5 rt kb q, hscan]
    have hcore : askCore md5 rt kb q =
        if 1/10 < docScore md5 rt q d then successResult d (docScore md5 rt q d)
        else keywordPhase kb q := by
      unfold askCore
      rw [if_neg hkb, hscan]
    rw [hbest, hcore]
    by_cases hthr : 1/10 < docScore md5 rt q d
    · rw [if_pos hthr]
      exact ⟨by simpa [successResult] using hthr,
        fun _ => ⟨l₁, d, l₂, hsplit, rfl, hpre, hpost, rfl⟩⟩
    · rw [if_neg hthr]
      exact ⟨⟨fun hsucc => absurd hsucc (keywordPhase_status_ne_success kb q),
        fun h => absurd h hthr⟩, fun h => absurd h hthr⟩

/-- C2: on a non-empty store and validated question, the vector phase scans
every stored document's similarity score against the question embedding; the
answer has status `success` exactly when the best score strictly exceeds the
threshold `0.1`, and in that case the matched document is the first one
attaining the best score (stable scan order, no re-sort: strictly smaller
scores before it, no larger score after it) and the response is
`successResult d best`, whose confidence is the best score rounded to 4
decimal places. -/
theorem ask_question_vector_phase_spec (md5 : PyStr → ℕ) (rt : ℚ → ℚ) (st : KBState)
    (now rawQ : PyStr) (hq : pyStrip rawQ ≠ []) (hkb : st.knowledge_base ≠ []) :
    ∃ res st', ask_question md5 rt st now rawQ = Except.ok (res, st') ∧
      (res.status = AskStatus.success ↔
        1/10 < bestVectorScore md5 rt st.knowledge_base (questionTruncated rawQ)) ∧
      (1/10 < bestVectorScore md5 rt st.knowledge_base (questionTruncated rawQ) →
        ∃ l₁ d l₂, st.knowledge_base = l₁ ++ d :: l₂ ∧
          docScore md5 rt (questionTruncated rawQ) d =
            bestVectorScore md5 rt st.knowledge_base (questionTruncated rawQ) ∧
          (∀ e ∈ l₁, docScore md5 rt (questionTruncated rawQ) e <
            docScore md5 rt (questionTruncated rawQ) d) ∧
          (∀ e ∈ l₂, docScore md5 rt (questionTruncated rawQ) e ≤
            docScore md5 rt (questionTruncated rawQ) d) ∧
          res = successResult d (docScore md5 rt (questionTruncated rawQ) d)) := by
  obtain ⟨hiff, himp⟩ :=
    askCore_vector_phase md5 rt st.knowledge_base (questionTruncated rawQ) hkb
  exact ⟨_, _, ask_question_ok md5 rt st now rawQ hq, hiff, himp⟩

/-! ## C3 -/

/-- Head of one insertion step on a non-empty accumulator. -/
theorem insertByCountDesc_head_cons (x y : Doc × List PyStr)
    (ys : List (Doc × List PyStr)) :
    (insertByCountDesc x (y :: ys)).head? =
      if y.2.length < x.2.length then some x else some y := by
  by_cases h : y.2.length < x.2.length <;> simp [insertByCountDesc, h]

/-- The head of the insertion-sort fold is the first element of maximal count
among the initial head and the inserted elements. -/
theorem sortFold_head_spec (t : List (Doc × List PyStr)) :
    ∀ (acc : List (Doc × List PyStr)) (h : Doc × List PyStr), acc.head? = some h →
      ((t.foldl (fun a x => insertByCountDesc x a) acc).head? = some h ∧
        ∀ y ∈ t, y.2.length ≤ h.2.length) ∨
      (∃ t₁ x t₂, t = t₁ ++ x :: t₂ ∧
        (t.foldl (fun a x => insertByCountDesc x a) acc).head? = some x ∧
        h.2.length < x.2.length ∧ (∀ y ∈ t₁, y.2.length < x.2.length) ∧
        (∀ y ∈ t₂, y.2.length ≤ x.2.length)) := by
  induction t with
  | nil =>
    intro acc h hh
    exact Or.inl ⟨hh, by simp⟩
  | cons a t ih =>
    intro acc h hh
    obtain ⟨tl, rfl⟩ : ∃ tl, acc = h :: tl := by
      cases acc with
      | nil => simp at hh
      | cons z zs =>
        simp only [List.head?_cons, Option.some.injEq] at hh
        exact ⟨zs, by rw [hh]⟩
    rw [List.foldl_cons]
    have hins := insertByCountDesc_head_cons a h tl
    by_cases hc : h.2.length < a.2.length
    · rw [if_pos hc] at hins
      rcases ih (insertByCountDesc a (h :: tl)) a hins with
        ⟨hh2, hall⟩ | ⟨t₁, x, t₂, ht, hh2, hlt, hpre, hpost⟩
      · exact Or.inr ⟨[], a, t, rfl, hh2, hc, by simp, hall⟩
      · refine Or.inr ⟨a :: t₁, x, t₂, by rw [ht, List.cons_append], hh2,
          lt_trans hc hlt, ?_, hpost⟩
        intro y hy
        rcases List.mem_cons.mp hy with rfl | hy'
        · exact hlt
        · exact hpre y hy'
    · rw [if_neg hc] at hins
      rcases ih (insertByCountDesc a (h :: tl)) h hins with
        ⟨hh2, hall⟩ | ⟨t₁, x, t₂, ht, hh2, hlt, hpre, hpost⟩
      · refine Or.inl ⟨hh2, ?_⟩
        intro y hy
        rcases List.mem_cons.mp hy with rfl | hy'
        · exact not_lt.mp hc
        · exact hall y hy'
      · refine Or.inr ⟨a :: t₁, x, t₂, by rw [ht, List.cons_append], hh2, hlt, ?_, hpost⟩
        intro y hy
        rcases List.mem_cons.mp hy with rfl | hy'
        · exact lt_of_le_of_lt (not_lt.mp hc) hlt
        · exact hpre y hy'

/-- The head of the stable descending sort is the first element of maximal
count: strictly smaller counts before it, no larger count after it. -/
theorem pySortByCountDesc_head_spec (l : List (Doc × List PyStr)) (hl : l ≠ []) :
    ∃ l₁ x l₂, l = l₁ ++ x :: l₂ ∧ (pySortByCountDesc l).head? = some x ∧
      (∀ y ∈ l₁, y.2.length < x.2.length) ∧ (∀ y ∈ l₂, y.2.length ≤ x.2.length) := by
  cases l with
  | nil => exact absurd rfl hl
  | cons a t =>
    have hfold : pySortByCountDesc (a :: t) =
        t.foldl (fun acc x => insertByCountDesc x acc) [a] := rfl
    rcases sortFold_head_spec t [a] a rfl with
      ⟨hh, hall⟩ | ⟨t₁, x, t₂, ht, hh, hlt, hpre, hpost⟩
    · exact ⟨[], a, t, rfl, by rw [hfold]; exact hh, by simp, hall⟩
    · refine ⟨a :: t₁, x, t₂, by rw [ht, List.cons_append], by rw [hfold]; exact hh,
        ?_, hpost⟩
      intro y hy
      rcases List.mem_cons.mp hy with rfl | hy'
      · exact hlt
      · exact hpre y hy'

/-- A decomposition of a `filterMap` image lifts to a decomposition of the
original list. -/
theorem filterMap_split {α β : Type} (F : α → Option β) :
    ∀ (l : List α) (l₁ : List β) (x : β) (l₂ : List β),
      l.filterMap F = l₁ ++ x :: l₂ →
      ∃ D₁ a D₂, l = D₁ ++ a :: D₂ ∧ F a = some x ∧
        D₁.filterMap F = l₁ ∧ D₂.filterMap F = l₂ := by
  intro l
  induction l with
  | nil =>
    intro l₁ x l₂ h
    rw [List.filterMap_nil] at h
    exact absurd h.symm (List.append_ne_nil_of_right_ne_nil _ (List.cons_ne_nil x l₂))
  | cons a t ih =>
    intro l₁ x l₂ h
    cases hFa : F a with
    | none =>
      rw [List.filterMap_cons_none hFa] at h
      obtain ⟨D₁, b, D₂, hsplit, hFb, h1, h2⟩ := ih l₁ x l₂ h
      exact ⟨a :: D₁, b, D₂, by rw [hsplit, List.cons_append], hFb,
        by rw [List.filterMap_cons_none hFa, h1], h2⟩
    | some b =>
      rw [List.filterMap_cons_some hFa] at h
      cases l₁ with
      | nil =>
        simp only [List.nil_append, List.cons.injEq] at h
        obtain ⟨hbx, ht⟩ := h
        exact ⟨[], a, t, rfl, by rw [hFa, hbx], rfl, ht⟩
      | cons c l₁' =>
        simp only [List.cons_append, List.cons.injEq] at h
        obtain ⟨hbc, ht⟩ := h
        obtain ⟨D₁, e, D₂, hsplit, hFe, h1, h2⟩ := ih l₁' x l₂ ht
        exact ⟨a :: D₁, e, D₂, by rw [hsplit, List.cons_append], hFe,
          by rw [List.filterMap_cons_some hFa, hbc, h1], h2⟩

/-- When every document score is at most the threshold, `askCore` falls
through to the keyword phase. -/
theorem askCore_keyword_phase (md5 : PyStr → ℕ) (rt : ℚ → ℚ) (kb : List Doc)
    (q : PyStr) (hkb : kb ≠ []) (hbest : bestVectorScore md5 rt kb q ≤ 1/10) :
    askCore md5 rt kb q = keywordPhase kb q := by
  have hsnd := vectorScanQE_snd md5 rt kb q
  rcases hscan : vectorScanQE rt (simple_embedding md5 q 384) kb with ⟨o, s⟩
  rw [hscan] at hsnd
  cases o with
  | none =>
    unfold askCore
    rw [if_neg hkb, hscan]
  | some d =>
    have hcore : askCore md5 rt kb q =
        if 1/10 < s then successResult d s else keywordPhase kb q := by
      unfold askCore
      rw [if_neg hkb, hscan]
    have hs : s ≤ 1/10 := by
      have hs2 : s = bestVectorScore md5 rt kb q := hsnd
      rw [hs2]
      exact hbest
    rw [hcore, if_neg (not_lt.mpr hs)]

/-- When no document shares a token with the question, the keyword phase
answers `no_match`. -/
theorem keywordPhase_no_match (kb : List Doc) (q : PyStr)
    (hall : ∀ d ∈ kb, commonKeywords q d = []) :
    keywordPhase kb q = noMatchResult := by
  have hkm : keywordMatches kb q = [] := by
    unfold keywordMatches
    apply List.filterMap_eq_nil_iff.mpr
    intro d hd
    rw [if_pos (hall d hd)]
  unfold keywordPhase
  rw [hkm]
  rfl

/-- When some document shares a token with the question, the keyword phase
answers from the first document of maximal common-token count. -/
theorem keywordPhase_selects (kb : List Doc) (q : PyStr)
    (hex : ∃ d ∈ kb, commonKeywords q d ≠ []) :
    ∃ l₁ d l₂, kb = l₁ ++ d :: l₂ ∧ commonKeywords q d ≠ [] ∧
      (∀ e ∈ l₁, (commonKeywords q e).length < (commonKeywords q d).length) ∧
      (∀ e ∈ l₂, (commonKeywords q e).length ≤ (commonKeywords q d).length) ∧
      keywordPhase kb q = keywordResult (d, commonKeywords q d) := by
  obtain ⟨d0, hd0, hc0⟩ := hex
  have hkm_ne : keywordMatches kb q ≠ [] := by
    intro h
    unfold keywordMatches at h
    have hnone := List.filterMap_eq_nil_iff.mp h d0 hd0
    rw [if_neg hc0] at hnone
    simp at hnone
  obtain ⟨k₁, x, k₂, hks, hhead, hkpre, hkpost⟩ :=
    pySortByCountDesc_head_spec (keywordMatches kb q) hkm_ne
  unfold keywordMatches at hks
  obtain ⟨D₁, a, D₂, hsplit, hFa, h1, h2⟩ := filterMap_split _ kb k₁ x k₂ hks
  have hca : commonKeywords q a ≠ [] := by
    intro hca
    rw [if_pos hca] at hFa
    simp at hFa
  have hxa : x = (a, commonKeywords q a) := by
    rw [if_neg hca] at hFa
    simpa using hFa.symm
  have hlenpos : 0 < (commonKeywords q a).length := List.length_pos.mpr hca
  refine ⟨D₁, a, D₂, hsplit, hca, ?_, ?_, ?_⟩
  · intro e he
    cases hFe : (if commonKeywords q e = [] then none
        else some (e, commonKeywords q e)) with
    | none =>
      have hce : commonKeywords q e = [] := by
        by_cases hce : commonKeywords q e = []
        · exact hce
        · rw [if_neg hce] at hFe
          simp at hFe
      rw [hce]
      simpa using hlenpos
    | some y =>
      have hy : y ∈ k₁ := by
        rw [← h1]
        exact List.mem_filterMap.mpr ⟨e, he, hFe⟩
      have hye : y = (e, commonKeywords q e) := by
        by_cases hce : commonKeywords q e = []
        · rw [if_pos hce] at hFe
          simp at hFe
        · rw [if_neg hce] at hFe
          simpa using hFe.symm
      have := hkpre y hy
      rw [hye, hxa] at this
      exact this
  · intro e he
    cases hFe : (if commonKeywords q e = [] then none
        else some (e, commonKeywords q e)) with
    | none =>
      have hce : commonKeywords q e = [] := by
        by_cases hce : commonKeywords q e = []
        · exact hce
        · rw [if_neg hce] at hFe
          simp at hFe
      rw [hce]
      exact le_of_lt (by simpa using hlenpos)
    | some y =>
      have hy : y ∈ k₂ := by
        rw [← h2]
        exact List.mem_filterMap.mpr ⟨e, he, hFe⟩
      have hye : y = (e, commonKeywords q e) := by
        by_cases hce : commonKeywords q e = []
        · rw [if_pos hce] at hFe
          simp at hFe
        · rw [if_neg hce] at hFe
          simpa using hFe.symm
      have := hkpost y hy
      rw [hye, hxa] at this
      exact this
  · unfold keywordPhase
    rw [hhead, hxa]

/-- C3: on a non-empty store and validated question, when no document's
vector score strictly exceeds `0.1`, the engine keeps only documents whose
stored keyword set meets the question's token set; if none qualifies the
answer is `no_match`, and otherwise the answer is built from the first
document of maximal common-token count (ties broken by store scan order),
with status `keyword_match` and confidence fixed at `0.5` regardless of the
overlap size. -/
theorem ask_question_keyword_fallback_spec (md5 : PyStr → ℕ) (rt : ℚ → ℚ)
    (st : KBState) (now rawQ : PyStr) (hq : pyStrip rawQ ≠ [])
    (hkb : st.knowledge_base ≠ [])
    (hbest : bestVectorScore md5 rt st.knowledge_base (questionTruncated rawQ) ≤ 1/10) :
    ∃ res st', ask_question md5 rt st now rawQ = Except.ok (res, st') ∧
      ((∀ d ∈ st.knowledge_base, commonKeywords (questionTruncated rawQ) d = []) →
        res.status = AskStatus.no_match) ∧
      ((∃ d ∈ st.knowledge_base, commonKeywords (questionTruncated rawQ) d ≠ []) →
        ∃ l₁ d l₂, st.knowledge_base = l₁ ++ d :: l₂ ∧
          commonKeywords (questionTruncated rawQ) d ≠ [] ∧
          (∀ e ∈ l₁, (commonKeywords (questionTruncated rawQ) e).length <
            (commonKeywords (questionTruncated rawQ) d).length) ∧
          (∀ e ∈ l₂, (commonKeywords (questionTruncated rawQ) e).length ≤
            (commonKeywords (questionTruncated rawQ) d).length) ∧
          res = keywordResult (d, commonKeywords (questionTruncated rawQ) d) ∧
          res.status = AskStatus.keyword_match ∧ res.confidence = 1/2) := by
  refine ⟨_, _, ask_question_ok md5 rt st now rawQ hq, ?_, ?_⟩
  · intro hall
    rw [askCore_keyword_phase md5 rt _ _ hkb hbest, keywordPhase_no_match _ _ hall]
    rfl
  · intro hex
    obtain ⟨l₁, d, l₂, hsplit, hc, hpre, hpost, hph⟩ :=
      keywordPhase_selects st.knowledge_base (questionTruncated rawQ) hex
    refine ⟨l₁, d, l₂, hsplit, hc, hpre, hpost, ?_, ?_, ?_⟩
    · rw [askCore_keyword_phase md5 rt _ _ hkb hbest, hph]
    · rw [askCore_keyword_phase md5 rt _ _ hkb hbest, hph]
      rfl
    · rw [askCore_keyword_phase md5 rt _ _ hkb hbest, hph]
      rfl

/-! ## C1 and C9 -/

/-- An `/ask` call never changes the document store. -/
theorem stepOp_ask_kb (md5 : PyStr → ℕ) (rt : ℚ → ℚ) (st : KBState) (q now : PyStr) :
    (stepOp md5 rt st (Op.ask q now)).knowledge_base = st.knowledge_base := by
  cases h : ask_question md5 rt st now q with
  | error e => simp [stepOp, h]
  | ok p =>
    obtain ⟨res, st'⟩ := p
    obtain ⟨-, -, hst⟩ := ask_question_ok_shape md5 rt st now q res st' h
    simp [stepOp, h, hst]

/-- In a clear-free run, every id assigned by an upload strictly exceeds the
store size at the start of the run, and the assigned ids are strictly
increasing. -/
theorem addedIds_increasing (md5 : PyStr → ℕ) (rt : ℚ → ℚ) :
    ∀ (ops : List Op) (st : KBState), Op.clear ∉ ops →
      (∀ i ∈ addedIds md5 rt st ops, st.knowledge_base.length < i) ∧
      List.Pairwise (· < ·) (addedIds md5 rt st ops) := by
  intro ops
  induction ops with
  | nil =>
    intro st hnc
    simp [addedIds]
  | cons op rest ih =>
    intro st hnc
    have hnc' : Op.clear ∉ rest := fun hmem => hnc (List.mem_cons_of_mem _ hmem)
    cases op with
    | add title content now =>
      cases hu : upload_document md5 st now title content with
      | error e =>
        have hstep : stepOp md5 rt st (Op.add title content now) = st := by
          simp [stepOp, hu]
        have hids : addedIds md5 rt st (Op.add title content now :: rest) =
            addedIds md5 rt st rest := by
          simp [addedIds, hu, hstep]
        rw [hids]
        exact ih st hnc'
      | ok p =>
        obtain ⟨d, st'⟩ := p
        obtain ⟨hid, hkb', -⟩ := upload_document_ok_shape md5 st now title content d st' hu
        have hstep : stepOp md5 rt st (Op.add title content now) = st' := by
          simp [stepOp, hu]
        have hids : addedIds md5 rt st (Op.add title content now :: rest) =
            d.id :: addedIds md5 rt st' rest := by
          simp [addedIds, hu, hstep]
        rw [hids]
        have hlen' : st'.knowledge_base.length = st.knowledge_base.length + 1 := by
          rw [hkb']
          simp
        obtain ⟨hbound, hpair⟩ := ih st' hnc'
        constructor
        · intro i hi
          rcases List.mem_cons.mp hi with rfl | hi'
          · omega
          · have := hbound i hi'
            omega
        · refine List.pairwise_cons.mpr ⟨?_, hpair⟩
          intro j hj
          have := hbound j hj
          omega
    | ask q now =>
      have hkbeq := stepOp_ask_kb md5 rt st q now
      have hids : addedIds md5 rt st (Op.ask q now :: rest) =
          addedIds md5 rt (stepOp md5 rt st (Op.ask q now)) rest := by
        simp [addedIds]
      rw [hids]
      obtain ⟨hbound, hpair⟩ := ih (stepOp md5 rt st (Op.ask q now)) hnc'
      refine ⟨?_, hpair⟩
      intro i hi
      have := hbound i hi
      rw [hkbeq] at this
      exact this
    | clear => exact absurd (List.mem_cons_self _ _) hnc

/-- C1 (counterexample): the claim "ids are never reused, even across clear"
fails on the code: uploading, clearing, and uploading again assigns the id
`1` twice, because `generate_doc_id` restarts from the emptied store's count. -/
theorem doc_id_reuse_after_clear :
    ¬ (addedIds md5Zero rtId initState
        [Op.add none "a".data "t1".data, Op.clear,
         Op.add none "b".data "t2".data]).Nodup := by
  decide

/-- C1 (amended): in any operation sequence containing no `clear`, the ids
assigned by uploads are strictly increasing, hence pairwise distinct; ids are
only reused across a `clear`, which resets the store count they are computed
from. -/
theorem added_ids_nodup_without_clear (md5 : PyStr → ℕ) (rt : ℚ → ℚ) (ops : List Op)
    (hnc : Op.clear ∉ ops) :
    (addedIds md5 rt initState ops).Nodup := by
  have h := (addedIds_increasing md5 rt ops initState hnc).2
  exact h.imp (fun hlt => ne_of_lt hlt)

/-- Witness for the amended C1: two consecutive uploads get distinct ids. -/
theorem added_ids_nodup_without_clear_witness :
    Op.clear ∉ [Op.add none "a".data "t1".data, Op.add none "b".data "t2".data] ∧
    (addedIds md5Zero rtId initState
      [Op.add none "a".data "t1".data, Op.add none "b".data "t2".data]).Nodup :=
  ⟨by decide, added_ids_nodup_without_clear md5Zero rtId _ (by decide)⟩

/-- C9 (counterexample): the claim "no operation — including clear — removes
query records" fails on the code: `clear_cache` resets `query_history` to the
empty list, so a record written by a validated question is gone after
`/clear`. -/
theorem query_history_cleared_counterexample :
    ¬ (∀ r ∈ (runOps md5Zero rtId [Op.ask "hi".data "t1".data]).query_history,
        r ∈ (runOps md5Zero rtId
          [Op.ask "hi".data "t1".data, Op.clear]).query_history) := by
  decide

/-- C9 (amended): every validated question appends exactly one record
(question text as processed, timestamp, store-size snapshot) and no upload or
invalid question touches the log, but `clear` erases the whole log. -/
theorem query_history_append_spec (md5 : PyStr → ℕ) (rt : ℚ → ℚ) (st : KBState)
    (now q content : PyStr) (title : Option PyStr) :
    (pyStrip q ≠ [] → ask_question md5 rt st now q =
      Except.ok (askCore md5 rt st.knowledge_base (questionTruncated q),
        { knowledge_base := st.knowledge_base,
          query_history := st.query_history ++
            [{ question := questionTruncated q, timestamp := now,
               documents_count := st.knowledge_base.length }] })) ∧
    (pyStrip q = [] → (stepOp md5 rt st (Op.ask q now)).query_history = st.query_history) ∧
    (stepOp md5 rt st (Op.add title content now)).query_history = st.query_history ∧
    (stepOp md5 rt st Op.clear).query_history = [] := by
  refine ⟨?_, ?_, ?_, rfl⟩
  · intro hq
    exact ask_question_ok md5 rt st now q hq
  · intro hq
    have herr : ask_question md5 rt st now q = Except.error "问题不能为空".data := by
      simp only [ask_question]
      rw [if_pos hq]
    simp [stepOp, herr]
  · cases hu : upload_document md5 st now title content with
    | error e => simp [stepOp, hu]
    | ok p =>
      obtain ⟨d, st'⟩ := p
      obtain ⟨-, -, hqh⟩ := upload_document_ok_shape md5 st now title content d st' hu
      simp [stepOp, hu, hqh]

/-- Witness for the amended C9: a concrete validated question appends its
record to the log. -/
theorem query_history_append_spec_witness :
    pyStrip "hi".data ≠ [] ∧
    ask_question md5Zero rtId initState "t1".data "hi".data =
      Except.ok (askCore md5Zero rtId initState.knowledge_base
          (questionTruncated "hi".data),
        { knowledge_base := initState.knowledge_base,
          query_history := initState.query_history ++
            [{ question := questionTruncated "hi".data, timestamp := "t1".data,
               documents_count := initState.knowledge_base.length }] }) :=
  ⟨by decide, (query_history_append_spec md5Zero rtId initState "t1".data "hi".data
      "x".data none).1 (by decide)⟩

/-! ## The success branch: C8 and C10 -/

/-- An answer with status `success` comes from the vector phase: the scan
ended at some document with a score strictly above the threshold, that score
is the best score, and the whole response is `successResult` of them. -/
theorem askCore_success_shape (md5 : PyStr → ℕ) (rt : ℚ → ℚ) (kb : List Doc)
    (q : PyStr) (hs : (askCore md5 rt kb q).status = AskStatus.success) :
    ∃ d s, d ∈ kb ∧
      vectorScanQE rt (simple_embedding md5 q 384) kb = (some d, s) ∧ 1/10 < s ∧
      s = bestVectorScore md5 rt kb q ∧
      askCore md5 rt kb q = successResult d s := by
  by_cases hkb : kb = []
  · exfalso
    rw [hkb] at hs
    simp [askCore, noDocumentsResult] at hs
  · rcases foldl_bestscan_spec
        (fun x : Doc => calculate_similarity rt (simple_embedding md5 q 384) x.embedding)
        kb ((none : Option Doc), (0 : ℚ)) with
      ⟨heq, -⟩ | ⟨l₁, d, l₂, hsplit, hfold, -, -, -⟩
    · exfalso
      have hscan : vectorScanQE rt (simple_embedding md5 q 384) kb = (none, 0) := by
        rw [vectorScanQE_eq]
        exact heq
      have hcore : askCore md5 rt kb q = keywordPhase kb q := by
        unfold askCore
        rw [if_neg hkb, hscan]
      rw [hcore] at hs
      exact keywordPhase_status_ne_success kb q hs
    · have hscan : vectorScanQE rt (simple_embedding md5 q 384) kb =
          (some d, calculate_similarity rt (simple_embedding md5 q 384) d.embedding) := by
        rw [vectorScanQE_eq]
        exact hfold
      have hcore : askCore md5 rt kb q =
          if 1/10 < calculate_similarity rt (simple_embedding md5 q 384) d.embedding
          then successResult d
            (calculate_similarity rt (simple_embedding md5 q 384) d.embedding)
          else keywordPhase kb q := by
        unfold askCore
        rw [if_neg hkb, hscan]
      by_cases hthr :
          1/10 < calculate_similarity rt (simple_embedding md5 q 384) d.embedding
      · refine ⟨d, _, ?_, hscan, hthr, ?_, ?_⟩
        · rw [hsplit]
          exact List.mem_append_right _ (List.mem_cons_self _ _)
        · have hsnd := vectorScanQE_snd md5 rt kb q
          rw [hscan] at hsnd
          exact hsnd
        · rw [hcore, if_pos hthr]
      · exfalso
        rw [hcore, if_neg hthr] at hs
        exact keywordPhase_status_ne_success kb q hs

/-- C8 (amended): in every `success` answer, the answer body carries the
first 300 characters of the matched content with the continuation marker
exactly when the content exceeds 300 characters, while the 100-character
content preview carries the continuation marker unconditionally — even when
nothing was truncated. -/
theorem success_excerpt_spec (md5 : PyStr → ℕ) (rt : ℚ → ℚ) (st : KBState)
    (now rawQ : PyStr) (res : AskResult) (st' : KBState)
    (h : ask_question md5 rt st now rawQ = Except.ok (res, st'))
    (hs : res.status = AskStatus.success) :
    ∃ d s, d ∈ st.knowledge_base ∧ res = successResult d s ∧
      res.source_content_preview = some (d.content.take 100 ++ "...".data) ∧
      res.answer = "根据文档「".data ++ d.title ++ "」找到相关信息：\n\n".data ++
        d.content.take 300 ++ (if 300 < d.content.length then "...".data else []) ∧
      (d.content.length ≤ 300 →
        res.answer = "根据文档「".data ++ d.title ++ "」找到相关信息：\n\n".data ++
          d.content) := by
  obtain ⟨-, hres, -⟩ := ask_question_ok_shape md5 rt st now rawQ res st' h
  rw [hres] at hs
  obtain ⟨d, s, hmem, -, -, -, hcore⟩ :=
    askCore_success_shape md5 rt st.knowledge_base (questionTruncated rawQ) hs
  rw [hres, hcore]
  refine ⟨d, s, hmem, rfl, rfl, rfl, ?_⟩
  intro hlen
  simp only [successResult]
  rw [if_neg (not_lt.mpr hlen), List.take_of_length_le hlen, List.append_nil]

/-- C10: in every `success` answer the top-level confidence and the
`source.similarity_score` field agree: both are the best vector-phase score
rounded to 4 decimal places. -/
theorem confidence_matches_similarity_score (md5 : PyStr → ℕ) (rt : ℚ → ℚ)
    (st : KBState) (now rawQ : PyStr) (res : AskResult) (st' : KBState)
    (h : ask_question md5 rt st now rawQ = Except.ok (res, st'))
    (hs : res.status = AskStatus.success) :
    ∃ s, s = bestVectorScore md5 rt st.knowledge_base (questionTruncated rawQ) ∧
      res.confidence = round4 s ∧
      res.source_similarity_score = some (round4 s) ∧
      res.source_similarity_score = some res.confidence := by
  obtain ⟨-, hres, -⟩ := ask_question_ok_shape md5 rt st now rawQ res st' h
  rw [hres] at hs
  obtain ⟨d, s, -, -, -, hbest, hcore⟩ :=
    askCore_success_shape md5 rt st.knowledge_base (questionTruncated rawQ) hs
  rw [hres, hcore]
  exact ⟨s, hbest, rfl, rfl, rfl⟩

/-! ## Concrete evaluations for the witnesses -/

/-- Splitting the one-character text `"a"`. -/
theorem pySplit_lower_a : pySplit (pyLower "a".data) = ["a".data] := by decide

/-- `"a"` is already stripped and short. -/
theorem questionTruncated_a : questionTruncated "a".data = "a".data := by decide

/-- Zipping two equal-length constant lists. -/
theorem zip_replicate_self {γ δ : Type} (a : γ) (b : δ) (n : ℕ) :
    (List.replicate n a).zip (List.replicate n b) = List.replicate n (a, b) := by
  induction n with
  | zero => rfl
  | succ k ih => simp [List.replicate_succ, List.zip_cons_cons, ih]

/-- Dot product of two vectors that are zero beyond their heads. -/
theorem consRepl_dot (x y : ℚ) (n : ℕ) :
    (((x :: List.replicate n (0:ℚ)).zip (y :: List.replicate n (0:ℚ))).map
      (fun p => p.1 * p.2)).sum = x * y := by
  rw [List.zip_cons_cons, List.map_cons, List.sum_cons, zip_replicate_self]
  simp [List.map_replicate, List.sum_replicate]

/-- Sum of squares of a vector that is zero beyond its head. -/
theorem consRepl_sumsq (x : ℚ) (n : ℕ) :
    ((x :: List.replicate n (0:ℚ)).map (fun a => a * a)).sum = x * x := by
  simp [List.map_replicate, List.sum_replicate]

/-- The embedding of `"a"` under `md5Stub`: value `0.5` then zero padding. -/
theorem simple_embedding_stub_a :
    simple_embedding md5Stub "a".data 384 = (1/2 : ℚ) :: List.replicate 383 0 := by
  rw [simple_embedding_eq]
  have htake : ((pySplit (pyLower "a".data)).take 384) = ["a".data] := by decide
  rw [htake]
  norm_num [md5Stub]

/-- The embedding of `"a"` under `md5Zero`: all zeros. -/
theorem simple_embedding_zero_a :
    simple_embedding md5Zero "a".data 384 = (0 : ℚ) :: List.replicate 383 0 := by
  rw [simple_embedding_eq]
  have htake : ((pySplit (pyLower "a".data)).take 384) = ["a".data] := by decide
  rw [htake]
  norm_num [md5Zero]

/-- Under `md5Stub` and `rtId`, the self-similarity of the embedding of `"a"`
is `4` (the exact value is irrelevant; all that matters is that it exceeds
the threshold). -/
theorem sim_stub_a :
    calculate_similarity rtId (simple_embedding md5Stub "a".data 384)
      (simple_embedding md5Stub "a".data 384) = 4 := by
  rw [simple_embedding_stub_a]
  simp only [calculate_similarity]
  rw [if_neg (by
    push_neg
    exact ⟨List.cons_ne_nil _ _, List.cons_ne_nil _ _, rfl⟩)]
  rw [consRepl_dot, consRepl_sumsq]
  norm_num [rtId]

/-- Under `md5Zero` the embedding is zero, so the similarity degrades to `0`. -/
theorem sim_zero_a :
    calculate_similarity rtId (simple_embedding md5Zero "a".data 384)
      (simple_embedding md5Zero "a".data 384) = 0 := by
  rw [simple_embedding_zero_a]
  simp only [calculate_similarity]
  rw [if_neg (by
    push_neg
    exact ⟨List.cons_ne_nil _ _, List.cons_ne_nil _ _, rfl⟩)]
  rw [consRepl_sumsq]
  rw [if_pos]
  left
  norm_num [rtId]

/-- The vector scan over the single-document store `stW`. -/
theorem vectorScan_stub :
    vectorScanQE rtId (simple_embedding md5Stub "a".data 384) [docW] =
      (some docW, 4) := by
  rw [vectorScanQE_eq]
  simp only [List.foldl_cons, List.foldl_nil]
  rw [show docW.embedding = simple_embedding md5Stub "a".data 384 from rfl, sim_stub_a]
  norm_num

/-- The vector scan over the single-document store `stW0` finds nothing. -/
theorem vectorScan_zero :
    vectorScanQE rtId (simple_embedding md5Zero "a".data 384) [docW0] =
      (none, 0) := by
  rw [vectorScanQE_eq]
  simp only [List.foldl_cons, List.foldl_nil]
  rw [show docW0.embedding = simple_embedding md5Zero "a".data 384 from rfl, sim_zero_a]
  norm_num

/-- Asking `"a"` against `stW` answers from the vector phase. -/
theorem askCore_stub : askCore md5Stub rtId [docW] "a".data = successResult docW 4 := by
  have hcore : askCore md5Stub rtId [docW] "a".data =
      if (1:ℚ)/10 < 4 then successResult docW 4 else keywordPhase [docW] "a".data := by
    unfold askCore
    rw [if_neg (by simp : ¬(([docW] : List Doc) = [])), vectorScan_stub]
  rw [hcore, if_pos (by norm_num : (1:ℚ)/10 < 4)]

/-- The full `/ask` call on `stW` with question `"a"`. -/
theorem ask_stub :
    ask_question md5Stub rtId stW "t1".data "a".data =
      Except.ok (successResult docW 4,
        { knowledge_base := [docW],
          query_history := [{ question := "a".data, timestamp := "t1".data,
                              documents_count := 1 }] }) := by
  rw [ask_question_ok md5Stub rtId stW "t1".data "a".data (by decide)]
  rw [questionTruncated_a]
  rw [show stW.knowledge_base = [docW] from rfl]
  rw [askCore_stub]
  rfl

/-- The best score of `stW0` under `md5Zero` is `0`. -/
theorem bestVectorScore_zero :
    bestVectorScore md5Zero rtId stW0.knowledge_base (questionTruncated "a".data) = 0 := by
  rw [← vectorScanQE_snd md5Zero rtId stW0.knowledge_base (questionTruncated "a".data)]
  rw [questionTruncated_a]
  rw [show stW0.knowledge_base = [docW0] from rfl]
  rw [vectorScan_zero]

/-- C8 (counterexample): the claim "the continuation marker is appended only
if the content was actually truncated" is false for the 100-character
preview: on `stW`, whose only document has 1-character content `"a"`, the
success answer's preview is `"a..."`, not `"a"`. -/
theorem success_preview_marker_counterexample :
    ¬ (∀ res st',
        ask_question md5Stub rtId stW "t1".data "a".data = Except.ok (res, st') →
        res.status = AskStatus.success →
        ∀ d ∈ stW.knowledge_base, res.source_document_id = some d.id →
          d.content.length ≤ 100 → res.source_content_preview = some d.content) := by
  intro hclaim
  have hpre := hclaim (successResult docW 4) _ ask_stub rfl docW
    (List.mem_cons_self _ _) rfl (by decide)
  exact absurd hpre (by decide)

/-! ## Witnesses -/

/-- Witness for C2: on the concrete store `stW` the vector phase fires and
the answer has status `success`. -/
theorem ask_question_vector_phase_spec_witness :
    ∃ res st', ask_question md5Stub rtId stW "t1".data "a".data = Except.ok (res, st') ∧
      res.status = AskStatus.success := by
  obtain ⟨res, st', heq, hiff, -⟩ :=
    ask_question_vector_phase_spec md5Stub rtId stW "t1".data "a".data
      (by decide) (by decide)
  refine ⟨res, st', heq, hiff.mpr ?_⟩
  have hbest :
      bestVectorScore md5Stub rtId stW.knowledge_base (questionTruncated "a".data) = 4 := by
    rw [← vectorScanQE_snd md5Stub rtId stW.knowledge_base (questionTruncated "a".data)]
    rw [questionTruncated_a]
    rw [show stW.knowledge_base = [docW] from rfl]
    rw [vectorScan_stub]
  rw [hbest]
  norm_num

/-- Witness for C3: on the concrete store `stW0`, where every vector score is
zero, the keyword fallback matches on the shared token `"a"` with status
`keyword_match` and confidence `0.5`. -/
theorem ask_question_keyword_fallback_spec_witness :
    ∃ res st', ask_question md5Zero rtId stW0 "t1".data "a".data = Except.ok (res, st') ∧
      res.status = AskStatus.keyword_match ∧ res.confidence = 1/2 := by
  obtain ⟨res, st', heq, -, hmatch⟩ :=
    ask_question_keyword_fallback_spec md5Zero rtId stW0 "t1".data "a".data
      (by decide) (by decide) (by rw [bestVectorScore_zero]; norm_num)
  obtain ⟨l₁, d, l₂, -, -, -, -, -, hstat, hconf⟩ :=
    hmatch ⟨docW0, List.mem_cons_self _ _, by decide⟩
  exact ⟨res, st', heq, hstat, hconf⟩

/-- Witness for C4: the embedding of `"hi"` in 3 dimensions has length 3 and
contains the padding value `0`, which lies in `[0, 1)`. -/
theorem simple_embedding_spec_witness :
    (simple_embedding md5Zero "hi".data 3).length = 3 ∧
    (0:ℚ) ∈ simple_embedding md5Zero "hi".data 3 ∧ 0 ≤ (0:ℚ) ∧ (0:ℚ) < 1 := by
  obtain ⟨hlen, hmem, -⟩ := simple_embedding_spec md5Zero "hi".data 3
  have h0 : (0:ℚ) ∈ simple_embedding md5Zero "hi".data 3 := by
    rw [simple_embedding_eq]
    apply List.mem_append_right
    apply List.mem_replicate.mpr
    have hl : (((pySplit (pyLower "hi".data)).take 3).map
        (fun word => ((md5Zero word % 10000 % 1000 : ℕ) : ℚ) / 1000)).length = 1 := by
      rw [List.length_map]
      decide
    rw [hl]
    exact ⟨by norm_num, rfl⟩
  obtain ⟨h1, h2⟩ := hmem 0 h0
  exact ⟨hlen, h0, h1, h2⟩

/-- Witness for C6: a concrete valid question against the empty store is
accepted and appends its (short, untruncated) record. -/
theorem ask_question_validation_spec_witness :
    ({ knowledge_base := [],
       query_history := [{ question := "hi".data, timestamp := "t1".data,
                           documents_count := 0 }] } : KBState).query_history =
      initState.query_history ++
        [{ question := questionTruncated "hi".data, timestamp := "t1".data,
           documents_count := initState.knowledge_base.length }] ∧
    (questionTruncated "hi".data).length ≤ 500 ∧
    (500 < (pyStrip "hi".data).length →
      questionTruncated "hi".data = (pyStrip "hi".data).take 500) ∧
    ((pyStrip "hi".data).length ≤ 500 →
      questionTruncated "hi".data = pyStrip "hi".data) :=
  (ask_question_validation_spec md5Zero rtId initState "t1".data "hi".data).2.1
    (askCore md5Zero rtId initState.knowledge_base (questionTruncated "hi".data)) _
    (ask_question_ok md5Zero rtId initState "t1".data "hi".data (by decide))

/-- Witness for C7: `rtId` satisfies the square-root hypotheses and the
degenerate empty-vector case evaluates to `0`. -/
theorem calculate_similarity_total_spec_witness :
    rtId 0 = 0 ∧ calculate_similarity rtId [] [] = 0 :=
  ⟨rfl, (calculate_similarity_total_spec rtId rfl (fun _ hq => ne_of_gt hq) [] []).1
    (Or.inl rfl)⟩

/-- Witness for the amended C8: on the concrete success answer over `stW`,
the preview carries the marker while the short answer body does not. -/
theorem success_excerpt_spec_witness :
    ∃ d s, d ∈ stW.knowledge_base ∧ successResult docW 4 = successResult d s ∧
      (successResult docW 4).source_content_preview =
        some (d.content.take 100 ++ "...".data) ∧
      (successResult docW 4).answer =
        "根据文档「".data ++ d.title ++ "」找到相关信息：\n\n".data ++
          d.content.take 300 ++ (if 300 < d.content.length then "...".data else []) ∧
      (d.content.length ≤ 300 →
        (successResult docW 4).answer =
          "根据文档「".data ++ d.title ++ "」找到相关信息：\n\n".data ++ d.content) :=
  success_excerpt_spec md5Stub rtId stW "t1".data "a".data (successResult docW 4) _
    ask_stub rfl

/-- Witness for C10: on the concrete success answer over `stW` the confidence
and similarity-score fields agree. -/
theorem confidence_matches_similarity_score_witness :
    ∃ s, s = bestVectorScore md5Stub rtId stW.knowledge_base
        (questionTruncated "a".data) ∧
      (successResult docW 4).confidence = round4 s ∧
      (successResult docW 4).source_similarity_score = some (round4 s) ∧
      (successResult docW 4).source_similarity_score =
        some ((successResult docW 4).confidence) :=
  confidence_matches_similarity_score md5Stub rtId stW "t1".data "a".data
    (successResult docW 4) _ ask_stub rfl
